import Mathlib

/-!
Verification of the FaceLink repository against its specification.

The repository ships the Next.js frontend (`FrontEnd/app/page.tsx`,
`FrontEnd/lib/api.ts`, `FrontEnd/components/*`) together with two design
documents (the backend architecture plan with the Prisma data model, and the
feature implementation plan).  The Flask backend referenced by those documents
(`Backend/routes/recognize.py`, `Backend/models.py`, task services, and the
polling page) is not part of the corpus, so the Announcement Gate, the Timeline
Recorder, the task listing service and the Recognition Poller are modelled from
the specification, while `recognizeFace`, `recognizePerson`,
`parseTimeFromText` and `formatTime` are shallow embeddings of the TypeScript
source.
-/

namespace FaceLink

/-! ## Announcement Gate (spec section 4.1) -/

/-- Modelled from the spec: the Announcement Gate state of section 4.1
(the backend implementation `Backend/routes/recognize.py` is absent from the
corpus).  `lastAnnouncedPersonId` and `lastAnnouncedAt` are the two fields the
spec names; timestamps are natural numbers. -/
structure GateState where
  lastAnnouncedPersonId : Option String
  lastAnnouncedAt : Option Nat
  deriving DecidableEq

/-- Modelled from the spec: a Face Matcher result, section 6:
`MatchResult = NoMatch | Matched(personId, confidence)`.  Confidence is kept
as a rational in `[0,1]`; the gate never inspects it. -/
inductive MatchResult where
  | NoMatch : MatchResult
  | Matched (personId : String) (confidence : ℚ) : MatchResult
  deriving DecidableEq

/-- Modelled from the spec: the output of `evaluate`, section 4.1:
`{ person, shouldAnnounce }`. -/
structure EvalOutput where
  person : Option String
  shouldAnnounce : Bool
  deriving DecidableEq

/-- Modelled from the spec: the announce condition of section 4.1 — announce
when `person.id != lastAnnouncedPersonId`, OR `lastAnnouncedAt` is none, OR
`now - lastAnnouncedAt >= cooldown`. -/
def announceCond (cooldown : Nat) (st : GateState) (pid : String) (now : Nat) : Bool :=
  (st.lastAnnouncedPersonId ≠ some pid : Bool) ||
    (match st.lastAnnouncedAt with
     | none => true
     | some t => decide (now - t ≥ cooldown))

/-- Modelled from the spec: `evaluate(matchResult, now) -> { person,
shouldAnnounce }` of section 4.1, returning the output together with the next
gate state.  No match leaves the state unchanged and announces nothing; a
match always reports the person, and announces (updating the state) exactly
when `announceCond` holds. -/
def evaluate (cooldown : Nat) (mr : MatchResult) (now : Nat) (st : GateState) :
    EvalOutput × GateState :=
  match mr with
  | .NoMatch => (⟨none, false⟩, st)
  | .Matched pid _ =>
    if announceCond cooldown st pid now then
      (⟨some pid, true⟩, ⟨some pid, some now⟩)
    else
      (⟨some pid, false⟩, st)

/-- Runs the gate over a list of `(matchResult, now)` inputs, collecting the
outputs and threading the state. -/
def runGate (cooldown : Nat) (st : GateState) :
    List (MatchResult × Nat) → List EvalOutput × GateState
  | [] => ([], st)
  | (mr, now) :: rest =>
    let (out, st1) := evaluate cooldown mr now st
    let (outs, st2) := runGate cooldown st1 rest
    (out :: outs, st2)

theorem runGate_cons (cooldown : Nat) (st : GateState) (mr : MatchResult)
    (now : Nat) (rest : List (MatchResult × Nat)) :
    runGate cooldown st ((mr, now) :: rest) =
      ((evaluate cooldown mr now st).1 ::
        (runGate cooldown (evaluate cooldown mr now st).2 rest).1,
       (runGate cooldown (evaluate cooldown mr now st).2 rest).2) := by
  simp [runGate]

/-! ## C2: a different person always announces -/

/-- C2: for every gate state in which `lastAnnouncedPersonId` is set, a match
on a person whose id differs from it announces, regardless of the remaining
cooldown. -/
theorem differentPerson_announces (cooldown : Nat) (st : GateState)
    (q p : String) (c : ℚ) (now : Nat)
    (hset : st.lastAnnouncedPersonId = some q) (hne : q ≠ p) :
    (evaluate cooldown (.Matched p c) now st).1.shouldAnnounce = true := by
  have hcond : announceCond cooldown st p now = true := by
    simp [announceCond, hset]
    exact Or.inl hne
  simp [evaluate, hcond]

theorem differentPerson_announces_witness :
    (⟨some "B", some 0⟩ : GateState).lastAnnouncedPersonId = some "B" ∧
      "B" ≠ "A" ∧
      (evaluate 300 (.Matched "A" 1) 1 ⟨some "B", some 0⟩).1.shouldAnnounce = true :=
  ⟨rfl, by decide,
    differentPerson_announces 300 ⟨some "B", some 0⟩ "B" "A" 1 1 rfl (by decide)⟩

/-! ## C3: `NoMatch` is inert -/

/-- C3: `evaluate` on `NoMatch` returns `{ person := none, shouldAnnounce :=
false }` and leaves the gate state unchanged, and any sequence of `NoMatch`
evaluations leaves `(lastAnnouncedPersonId, lastAnnouncedAt)` unchanged. -/
theorem noMatch_inert (cooldown : Nat) (st : GateState) (now : Nat)
    (nows : List Nat) :
    evaluate cooldown .NoMatch now st = (⟨none, false⟩, st) ∧
      (runGate cooldown st (nows.map (fun t => (.NoMatch, t)))).2 = st := by
  refine ⟨rfl, ?_⟩
  induction nows with
  | nil => rfl
  | cons t rest ih => simpa [runGate, evaluate] using ih

/-! ## C1: same person within the cooldown window -/

/-- C1 (corrected): if the initial gate state lets the first match announce,
then for a sequence of matches of the same person at later times inside the
cooldown window of that first announcement, `shouldAnnounce` is true exactly
for the first match and false for all the later ones. -/
theorem samePersonWindow (cooldown : Nat) (st : GateState) (p : String)
    (c : ℚ) (t0 : Nat) (ts : List Nat)
    (hcond : announceCond cooldown st p t0 = true)
    (hwin : ∀ t ∈ ts, t0 ≤ t ∧ t < t0 + cooldown) :
    (runGate cooldown st
        ((.Matched p c, t0) :: ts.map (fun t => (.Matched p c, t)))).1.map
        (fun o => o.shouldAnnounce) =
      true :: ts.map (fun _ => false) := by
  have hfirst : evaluate cooldown (.Matched p c) t0 st =
      (⟨some p, true⟩, ⟨some p, some t0⟩) := by
    simp [evaluate, hcond]
  rw [runGate_cons, hfirst]
  simp only [List.map_cons, List.cons.injEq, true_and]
  clear hfirst hcond
  induction ts with
  | nil => rfl
  | cons t rest ih =>
    have ht := hwin t (List.mem_cons_self t rest)
    have hlater : announceCond cooldown ⟨some p, some t0⟩ p t = false := by
      simp [announceCond]
      omega
    have hstep : evaluate cooldown (.Matched p c) t ⟨some p, some t0⟩ =
        (⟨some p, false⟩, ⟨some p, some t0⟩) := by
      simp [evaluate, hlater]
    rw [List.map_cons, runGate_cons, hstep]
    simp only [List.map_cons, List.cons.injEq, true_and]
    exact ih (fun u hu => hwin u (List.mem_cons_of_mem t hu))

theorem samePersonWindow_witness :
    (announceCond 300 ⟨none, none⟩ "A" 0 = true ∧
        ∀ t ∈ [60, 120, 240], 0 ≤ t ∧ t < 0 + 300) ∧
      (runGate 300 ⟨none, none⟩
          ((.Matched "A" 1, 0) ::
            [60, 120, 240].map (fun t => (.Matched "A" 1, t)))).1.map
          (fun o => o.shouldAnnounce) =
        true :: [60, 120, 240].map (fun _ => false) :=
  ⟨⟨by decide, by decide⟩,
    samePersonWindow 300 ⟨none, none⟩ "A" 1 0 [60, 120, 240] (by decide)
      (by decide)⟩

/-- C1 (counterexample): the claim quantifies over *every* gate state, but if
the gate has already announced the same person within the cooldown window, the
first match of the sequence is suppressed rather than announced: with cooldown
300 and state `⟨some "A", some 0⟩`, a single match of `"A"` at time 60 yields
`shouldAnnounce = false`, not `true`. -/
theorem samePersonWindow_cex :
    (runGate 300 ⟨some "A", some 0⟩ [(.Matched "A" 1, 60)]).1.map
        (fun o => o.shouldAnnounce) = [false] := by
  decide

/-! ## C4: a match always yields the person for display -/

/-- C4: every matched evaluation reports the matched person in its output,
whether or not it announces; only `shouldAnnounce` is gated. -/
theorem matched_yields_person (cooldown : Nat) (st : GateState) (p : String)
    (c : ℚ) (now : Nat) :
    (evaluate cooldown (.Matched p c) now st).1.person = some p := by
  by_cases h : announceCond cooldown st p now = true
  · simp [evaluate, h]
  · simp [evaluate, h]

/-! ## C5: exactly one TimelineEvent per evaluation -/

/-- Modelled from the spec: a TimelineEvent as produced by the external
Timeline Recorder contract of section 6, `record(userId, eventKind, personId |
none, notes | none, confidence | none)`. -/
structure TimelineEventR where
  eventType : String
  personId : Option String
  timestampR : Nat
  confidence : Option ℚ
  deriving DecidableEq

/-- Modelled from the spec: the single TimelineEvent recorded for one
recognition evaluation (section 4.1: "Every evaluation, matched or not,
produces exactly one TimelineEvent record upstream"). -/
def recordEvent (mr : MatchResult) (now : Nat) : TimelineEventR :=
  match mr with
  | .NoMatch => ⟨"recognition", none, now, none⟩
  | .Matched p c => ⟨"recognition", some p, now, some c⟩

/-- Runs the gate over a list of inputs while collecting the TimelineEvents
recorded for each evaluation. -/
def runGateRec (cooldown : Nat) (st : GateState) :
    List (MatchResult × Nat) → List TimelineEventR × GateState
  | [] => ([], st)
  | (mr, now) :: rest =>
    let st1 := (evaluate cooldown mr now st).2
    let (evs, st2) := runGateRec cooldown st1 rest
    (recordEvent mr now :: evs, st2)

/-- A person as held by the frontend (`FrontEnd/app/page.tsx`). -/
structure PersonT where
  id : String
  name : String
  relationship : String
  reminder : String
  deriving DecidableEq

/-- A timeline event as held by the frontend (`FrontEnd/app/page.tsx`): id is
`Date.now().toString()`, plus the person's name and relationship and the
timestamp. -/
structure TimelineEventT where
  id : String
  personName : String
  relationship : String
  timestampT : Nat
  deriving DecidableEq

/-- Shallow embedding of the deterministic core of `recognizePerson`
(`FrontEnd/app/page.tsx` lines 83-94): `Math.floor(Math.random() * ...)` is
the index `k`, `Date.now()` is `nowMs`; the chosen person becomes
`currentPerson` and exactly one new event is prepended to the timeline. -/
def recognizePerson (people : List PersonT) (k : Fin people.length)
    (nowMs : Nat) (events : List TimelineEventT) :
    PersonT × List TimelineEventT :=
  let randomPerson := people.get k
  let newEvent : TimelineEventT :=
    ⟨toString nowMs, randomPerson.name, randomPerson.relationship, nowMs⟩
  (randomPerson, newEvent :: events)

/-- C5: every recognition evaluation produces exactly one TimelineEvent —
over any input sequence the recorder emits one event per evaluation, and the
frontend's `recognizePerson` grows the timeline by exactly one event per
attempt. -/
theorem one_event_per_evaluation (cooldown : Nat) (st : GateState)
    (inputs : List (MatchResult × Nat)) (people : List PersonT)
    (k : Fin people.length) (nowMs : Nat) (events : List TimelineEventT) :
    (runGateRec cooldown st inputs).1.length = inputs.length ∧
      ((recognizePerson people k nowMs events).2).length = events.length + 1 := by
  constructor
  · induction inputs generalizing st with
    | nil => rfl
    | cons input rest ih =>
      obtain ⟨mr, now⟩ := input
      simpa [runGateRec] using ih (evaluate cooldown mr now st).2
  · simp [recognizePerson]

/-! ## C6: matcher failure is a no-match -/

/-- The recognition payload of `FrontEnd/lib/api.ts` (`RecognitionResult`,
lines 55-61). -/
structure RecognitionResult where
  recognized : Bool
  person : Option PersonT
  confidence : Option ℚ
  should_announce : Bool
  message : String
  deriving DecidableEq

/-- The parsed response envelope of the backend (`{ success, data }`), as read
by `recognizeFace`. -/
structure RecognizeEnvelope where
  success : Bool
  data : RecognitionResult
  deriving DecidableEq

/-- Shallow embedding of `recognizeFace` (`FrontEnd/lib/api.ts` lines
178-191): the fetch either throws (network failure, timeout, bad JSON —
the `Except.error` case, caught and turned into `null`) or yields a parsed
envelope, whose data is returned only when `success` is true. -/
def recognizeFace (outcome : Except String RecognizeEnvelope) :
    Option RecognitionResult :=
  match outcome with
  | .error _ => none
  | .ok env => if env.success then some env.data else none

/-- Modelled from the spec: section 4.1's failure policy ("if the Face Matcher
is unavailable or errors, treat as no match for that tick") and section 5's
timeout policy ("treat a timeout identically to no match"): a failed matcher
call is folded to `NoMatch` before the gate sees it. -/
def matcherOutcomeToResult (o : Except String MatchResult) : MatchResult :=
  match o with
  | .error _ => .NoMatch
  | .ok mr => mr

/-- Modelled from the spec: one poll tick — fold the matcher outcome to a
`MatchResult` and run the gate on it. -/
def tickFromMatcher (cooldown : Nat) (o : Except String MatchResult)
    (now : Nat) (st : GateState) : EvalOutput × GateState :=
  evaluate cooldown (matcherOutcomeToResult o) now st

/-- Runs the poll loop over a list of matcher outcomes; every tick is
processed, erroneous or not. -/
def runPollOutcomes (cooldown : Nat) (st : GateState) :
    List (Except String MatchResult × Nat) → List EvalOutput × GateState
  | [] => ([], st)
  | (o, now) :: rest =>
    let (out, st1) := tickFromMatcher cooldown o now st
    let (outs, st2) := runPollOutcomes cooldown st1 rest
    (out :: outs, st2)

/-- C6: a failed Face Matcher call is treated exactly as a no-match tick:
`recognizeFace` surfaces `none` instead of an error, the erroring tick
produces the same output and state as a `NoMatch` tick (so the gate state is
untouched and nothing is announced), and the poll loop processes every tick
of any outcome sequence rather than aborting. -/
theorem matcherFailure_isNoMatch (e : String) (cooldown : Nat) (now : Nat)
    (st : GateState) (outcomes : List (Except String MatchResult × Nat)) :
    recognizeFace (.error e) = none ∧
      tickFromMatcher cooldown (.error e) now st =
        tickFromMatcher cooldown (.ok .NoMatch) now st ∧
      (tickFromMatcher cooldown (.error e) now st).2 = st ∧
      (tickFromMatcher cooldown (.error e) now st).1.shouldAnnounce = false ∧
      (runPollOutcomes cooldown st outcomes).1.length = outcomes.length := by
  refine ⟨rfl, rfl, rfl, rfl, ?_⟩
  induction outcomes generalizing st with
  | nil => rfl
  | cons onow rest ih =>
    obtain ⟨o, now1⟩ := onow
    simpa [runPollOutcomes] using ih (tickFromMatcher cooldown o now1 st).2

/-! ## C7: deleting a referenced Person sets the reference to null -/

/-- A Person row of the relational schema (backend architecture plan,
`Person` model). -/
structure PersonRow where
  id : Nat
  name : String
  deriving DecidableEq

/-- A TimelineEvent row of the relational schema (backend architecture plan,
`TimelineEvent` model): `personId` is optional and carries
`onDelete: SetNull`. -/
structure EventRow where
  id : Nat
  eventType : String
  personId : Option Nat
  notes : Option String
  deriving DecidableEq

/-- The relational store relevant to Person deletion. -/
structure Db where
  people : List PersonRow
  events : List EventRow
  deriving DecidableEq

/-- Modelled from the spec: deleting a Person under the `onDelete: SetNull`
referential action declared on `TimelineEvent.person` in the backend
architecture plan (the backend delete implementation is absent from the
corpus): the person row is removed, and every event that referenced it keeps
all its fields but has `personId` set to null; no event is deleted and the
deletion is never blocked. -/
def deletePersonDb (pid : Nat) (db : Db) : Db :=
  { people := db.people.filter (fun p => p.id ≠ pid),
    events := db.events.map (fun e =>
      if e.personId = some pid then { e with personId := none } else e) }

/-- C7: deleting a Person referenced by existing TimelineEvents retains every
event (same count, same ids, same kinds and notes, in order), no surviving
event still references the deleted person, and events that referenced someone
else are untouched. -/
theorem deletePerson_setNull (pid : Nat) (db : Db) :
    (deletePersonDb pid db).events.length = db.events.length ∧
      (deletePersonDb pid db).events.map (fun e => e.id) =
        db.events.map (fun e => e.id) ∧
      (deletePersonDb pid db).events.map (fun e => (e.eventType, e.notes)) =
        db.events.map (fun e => (e.eventType, e.notes)) ∧
      ((deletePersonDb pid db).events.all
        (fun e => !(e.personId == some pid))) = true ∧
      (deletePersonDb pid db).events.map
          (fun e => if e.personId = some pid then none else e.personId) =
        db.events.map
          (fun e => if e.personId = some pid then none else e.personId) := by
  refine ⟨by simp [deletePersonDb], ?_, ?_, ?_, ?_⟩
  · simp only [deletePersonDb, List.map_map]
    refine List.map_congr_left (fun e _ => ?_)
    by_cases h : e.personId = some pid <;> simp [h]
  · simp only [deletePersonDb, List.map_map]
    refine List.map_congr_left (fun e _ => ?_)
    by_cases h : e.personId = some pid <;> simp [h]
  · simp only [deletePersonDb, List.all_map]
    refine List.all_eq_true.mpr (fun e _ => ?_)
    by_cases h : e.personId = some pid <;> simp [h]
  · simp only [deletePersonDb, List.map_map]
    refine List.map_congr_left (fun e _ => ?_)
    by_cases h : e.personId = some pid <;> simp [h]

/-- C7, instantiated at the spec's scenario: a person with 3 events; after the
deletion all 3 events remain with `personId = none`. -/
theorem deletePerson_setNull_example :
    (deletePersonDb 1
        ⟨[⟨1, "Anika"⟩],
         [⟨10, "recognition", some 1, none⟩,
          ⟨11, "recognition", some 1, none⟩,
          ⟨12, "recognition", some 1, some "note"⟩]⟩).events =
      [⟨10, "recognition", none, none⟩,
       ⟨11, "recognition", none, none⟩,
       ⟨12, "recognition", none, some "note"⟩] := by
  decide

/-! ## C9: at most one recognition attempt in flight -/

/-- Modelled from the spec: the Recognition Poller of section 4.2.  `inFlight`
counts outstanding recognition attempts, `started` counts attempts ever
launched, `skipped` counts poll ticks dropped because an attempt was still
outstanding. -/
structure PollerState where
  inFlight : Nat
  started : Nat
  skipped : Nat
  deriving DecidableEq

/-- Modelled from the spec: events the poller reacts to — a timer tick firing,
and an outstanding attempt completing. -/
inductive PollEvent where
  | tickFire : PollEvent
  | attemptDone : PollEvent
  deriving DecidableEq

/-- Modelled from the spec: the poller policy of section 4.2 — a tick that
fires while an attempt is outstanding is skipped (it launches nothing); a tick
firing with no attempt outstanding launches one; a completion retires one
outstanding attempt. -/
def stepPoller (s : PollerState) (ev : PollEvent) : PollerState :=
  match ev with
  | .tickFire =>
    if s.inFlight = 0 then
      { s with inFlight := s.inFlight + 1, started := s.started + 1 }
    else
      { s with skipped := s.skipped + 1 }
  | .attemptDone => { s with inFlight := s.inFlight - 1 }

/-- The poller run from the idle initial state over a trace of events. -/
def runPoller (evs : List PollEvent) : PollerState :=
  evs.foldl stepPoller ⟨0, 0, 0⟩

/-- C9: along every event trace at most one recognition attempt is in flight,
and a tick that fires while one is outstanding is skipped: it starts no new
attempt and leaves the in-flight attempt as is. -/
theorem poller_no_overlap (evs : List PollEvent) (s : PollerState) :
    (runPoller evs).inFlight ≤ 1 ∧
      (1 ≤ s.inFlight →
        (stepPoller s .tickFire).started = s.started ∧
          (stepPoller s .tickFire).inFlight = s.inFlight) := by
  constructor
  · suffices h : ∀ t : PollerState, t.inFlight ≤ 1 →
        (evs.foldl stepPoller t).inFlight ≤ 1 by
      exact h ⟨0, 0, 0⟩ (by decide)
    induction evs with
    | nil => intro t ht; exact ht
    | cons ev rest ih =>
      intro t ht
      refine ih (stepPoller t ev) ?_
      cases ev with
      | tickFire =>
        by_cases h0 : t.inFlight = 0
        · simp [stepPoller, h0]
        · simpa [stepPoller, h0] using ht
      | attemptDone =>
        simp only [stepPoller]
        omega
  · intro hs
    have h0 : ¬ s.inFlight = 0 := by omega
    simp [stepPoller, h0]

theorem poller_no_overlap_witness :
    (runPoller [.tickFire, .tickFire, .attemptDone, .tickFire]).inFlight ≤ 1 ∧
      (1 ≤ (⟨1, 1, 0⟩ : PollerState).inFlight →
        (stepPoller ⟨1, 1, 0⟩ .tickFire).started = (1 : Nat) ∧
          (stepPoller ⟨1, 1, 0⟩ .tickFire).inFlight = (1 : Nat)) :=
  poller_no_overlap [.tickFire, .tickFire, .attemptDone, .tickFire] ⟨1, 1, 0⟩

/-! ## C8: task listing filtered by date, ordered by time -/

/-- A Task row of the data model (spec section 3): a calendar date, a
time-of-day value (minutes since midnight), and the remaining fields. -/
structure TaskRow where
  id : Nat
  title : String
  description : Option String
  time : Nat
  date : String
  completed : Bool
  reminder : Bool
  deriving DecidableEq

/-- Ordering of tasks by their time-of-day value. -/
def taskLe (a b : TaskRow) : Prop := a.time ≤ b.time

instance : DecidableRel taskLe := fun a b => Nat.decLe a.time b.time

instance : IsTotal TaskRow taskLe := ⟨fun a b => Nat.le_total a.time b.time⟩

instance : IsTrans TaskRow taskLe := ⟨fun _ _ _ => Nat.le_trans⟩

/-- Modelled from the spec: the task-listing service behind `fetchTasks`
(`FrontEnd/lib/api.ts` lines 119-131 forwards the `?date=` filter to the
backend, whose task service is absent from the corpus).  Section 4.3: listing
is "filterable by a single calendar date"; section 8: the result holds "only
tasks whose date field equals that value, ordered by time ascending". -/
def listTasksByDate (d : String) (tasks : List TaskRow) : List TaskRow :=
  List.insertionSort taskLe (tasks.filter (fun t => t.date == d))

/-- C8: listing tasks by a calendar date returns exactly the stored tasks
whose date equals it (as a permutation of the filtered store, hence the same
multiplicities), and the returned list is sorted by time-of-day ascending. -/
theorem listTasksByDate_spec (d : String) (tasks : List TaskRow) :
    List.Sorted taskLe (listTasksByDate d tasks) ∧
      (listTasksByDate d tasks).Perm
        (tasks.filter (fun t => t.date == d)) ∧
      ∀ t : TaskRow, t ∈ listTasksByDate d tasks ↔ t ∈ tasks ∧ t.date = d := by
  refine ⟨List.sorted_insertionSort taskLe _,
    List.perm_insertionSort taskLe _, fun t => ?_⟩
  rw [listTasksByDate, (List.perm_insertionSort taskLe _).mem_iff,
    List.mem_filter]
  simp

/-! ## C10: `parseTimeFromText` / `formatTime` round trip

`parseTimeFromText` (`FrontEnd/components/voice-planner.tsx` lines 7-35)
matches the first occurrence of the regular expression
`/(\b\d{1,2}(:\d{2})?\s*(am|pm)\b)|(at\s+\d{1,2}(:\d{2})?\s*(am|pm)?)|(\b\d{1,2}:\d{2}\b)/i`
in the input, then extracts hours and minutes from the matched substring.
The embedding below hand-compiles that regex — three alternatives tried in
order at each position, leftmost match wins, greedy quantifiers, word
boundaries, case-insensitive — over `List Char`.  For this particular
pattern greedy matching needs no backtracking: whenever a greedy choice of
`\d{1,2}` or `(:\d{2})?` or `\s*` fails, every shorter choice resumes at a
character that also fails the continuation. -/

/-- JavaScript `\w`: ASCII letters, digits and underscore. -/
def isWordChar (c : Char) : Bool := c.isAlphanum || c = '_'

/-- JavaScript `\s` restricted to the common whitespace characters. -/
def isSpaceChar (c : Char) : Bool :=
  c = ' ' || c = '\t' || c = '\n' || c = '\r'

/-- Length of the leading run of whitespace (greedy `\s*`). -/
def countSpaces : List Char → Nat
  | [] => 0
  | c :: rest => if isSpaceChar c then countSpaces rest + 1 else 0

/-- First character of a case-insensitive `am` or `pm`. -/
def isAmPmStart (c : Char) : Bool := c.toLower = 'a' || c.toLower = 'p'

/-- Greedy optional `(:\d{2})`: consumed length and remaining input. -/
def colonOpt : List Char → Nat × List Char
  | ':' :: a :: b :: rest =>
    if a.isDigit && b.isDigit then (3, rest) else (0, ':' :: a :: b :: rest)
  | l => (0, l)

/-- Greedy second digit of `\d{1,2}` (the first digit is consumed by the
caller): extra consumed length and remaining input. -/
def digit2Opt : List Char → Nat × List Char
  | c :: rest => if c.isDigit then (1, rest) else (0, c :: rest)
  | [] => (0, [])

/-- `(am|pm)\b` (case-insensitive): consumed length if it matches here. -/
def ampmEnd (l : List Char) : Option Nat :=
  match l with
  | x :: y :: rest =>
    if isAmPmStart x && y.toLower = 'm' then
      match rest with
      | [] => some 2
      | z :: _ => if isWordChar z then none else some 2
    else none
  | _ => none

/-- First alternative `\b\d{1,2}(:\d{2})?\s*(am|pm)\b` tried at this
position; `prevWord` tells whether the previous character is a word
character (for `\b`). -/
def tryAltA (prevWord : Bool) (l : List Char) : Option Nat :=
  if prevWord then none
  else
    match l with
    | c1 :: rest1 =>
      if c1.isDigit then
        let (dExtra, rest2) := digit2Opt rest1
        let (cLen, rest3) := colonOpt rest2
        let sLen := countSpaces rest3
        match ampmEnd (rest3.drop sLen) with
        | some aLen => some (1 + dExtra + cLen + sLen + aLen)
        | none => none
      else none
    | [] => none

/-- Second alternative `at\s+\d{1,2}(:\d{2})?\s*(am|pm)?` tried at this
position (no word boundaries, trailing `am`/`pm` optional). -/
def tryAltB (l : List Char) : Option Nat :=
  match l with
  | ca :: ct :: rest1 =>
    if ca.toLower = 'a' && ct.toLower = 't' then
      let sLen := countSpaces rest1
      if sLen = 0 then none
      else
        match rest1.drop sLen with
        | c1 :: rest3 =>
          if c1.isDigit then
            let (dExtra, rest4) := digit2Opt rest3
            let (cLen, rest5) := colonOpt rest4
            let s2 := countSpaces rest5
            let aLen :=
              match rest5.drop s2 with
              | x :: y :: _ => if isAmPmStart x && y.toLower = 'm' then 2 else 0
              | _ => 0
            some (2 + sLen + 1 + dExtra + cLen + s2 + aLen)
          else none
        | [] => none
    else none
  | _ => none

/-- Third alternative `\b\d{1,2}:\d{2}\b` tried at this position. -/
def tryAltC (prevWord : Bool) (l : List Char) : Option Nat :=
  if prevWord then none
  else
    match l with
    | c1 :: rest1 =>
      if c1.isDigit then
        match rest1 with
        | c2 :: rest2 =>
          if c2.isDigit then
            match rest2 with
            | ':' :: a :: b :: r =>
              if a.isDigit && b.isDigit then
                match r with
                | [] => some 5
                | z :: _ => if isWordChar z then none else some 5
              else none
            | _ => none
          else if c2 = ':' then
            match rest2 with
            | a :: b :: r =>
              if a.isDigit && b.isDigit then
                match r with
                | [] => some 4
                | z :: _ => if isWordChar z then none else some 4
              else none
            | _ => none
          else none
        | [] => none
      else none
    | [] => none

/-- Leftmost match of the time regex: positions are scanned left to right
and at each position the three alternatives are tried in source order; the
matched substring is returned. -/
def scanFirst (prevWord : Bool) : List Char → Option (List Char)
  | [] => none
  | c :: rest =>
    match tryAltA prevWord (c :: rest) with
    | some n => some ((c :: rest).take n)
    | none =>
      match tryAltB (c :: rest) with
      | some n => some ((c :: rest).take n)
      | none =>
        match tryAltC prevWord (c :: rest) with
        | some n => some ((c :: rest).take n)
        | none => scanFirst (isWordChar c) rest

/-- First case-insensitive `am`/`pm` inside the matched substring
(`matched.match(/(am|pm)/i)`), reported by its lowercased first letter. -/
def findAmpm : List Char → Option Char
  | x :: y :: rest =>
    if isAmPmStart x && y.toLower = 'm' then some x.toLower
    else findAmpm (y :: rest)
  | _ => none

/-- `parseInt` on a digit string (callers only pass nonempty digit runs). -/
def digitsToNat (l : List Char) : Nat :=
  l.foldl (fun acc c => acc * 10 + (c.toNat - 48)) 0

/-- JavaScript `split(':')`. -/
def splitColon : List Char → List (List Char)
  | [] => [[]]
  | ':' :: rest => [] :: splitColon rest
  | c :: rest =>
    match splitColon rest with
    | [] => [[c]]
    | h :: t => (c :: h) :: t

/-- The decimal digit character for `n < 10`. -/
def digitChar (n : Nat) : Char := Char.ofNat (48 + n)

/-- `n.toString().padStart(2, '0')` for `n ≤ 99` (every value reaching it). -/
def pad2 (n : Nat) : List Char := [digitChar (n / 10 % 10), digitChar (n % 10)]

/-- `n.toString()` for `n ≤ 99`. -/
def natToChars (n : Nat) : List Char :=
  if n < 10 then [digitChar n] else pad2 n

/-- The extraction `parseTimeFromText` performs on the matched substring
(`FrontEnd/components/voice-planner.tsx` lines 13-34): if the match contains
a colon, keep only digits and colons and split on the colon for hours and
minutes, otherwise concatenate all its digits as the hour; then apply the
am/pm adjustment and zero-pad both fields. -/
def parseMatched (matched : List Char) : List Char :=
  let ampm := findAmpm matched
  let hm : Nat × Nat :=
    if matched.contains ':' then
      let cleaned := matched.filter (fun c => c.isDigit || c = ':')
      let parts := splitColon cleaned
      let h := digitsToNat (parts.headD [])
      let m :=
        match parts with
        | _ :: p2 :: _ => if p2.isEmpty then 0 else digitsToNat p2
        | _ => 0
      (h, m)
    else
      (digitsToNat (matched.filter (fun c => c.isDigit)), 0)
  let hours :=
    match ampm with
    | some 'p' => if hm.1 < 12 then hm.1 + 12 else hm.1
    | some 'a' => if hm.1 = 12 then 0 else hm.1
    | _ => hm.1
  pad2 hours ++ ':' :: pad2 hm.2

/-- Shallow embedding of `parseTimeFromText`
(`FrontEnd/components/voice-planner.tsx` lines 7-35): find the first regex
match in the input and run the hour/minute extraction on it; `null` when the
regex does not match. -/
def parseTimeFromText (text : List Char) : Option (List Char) :=
  match scanFirst false text with
  | none => none
  | some matched => some (parseMatched matched)

/-- Shallow embedding of `formatTime`
(`FrontEnd/components/calendar-view.tsx` lines 35-41): split `"HH:MM"` on the
colon, render the hour modulo 12 (with 0 shown as 12) unpadded, the minutes
zero-padded, and the `AM`/`PM` period. -/
def formatTime (timeStr : List Char) : List Char :=
  let parts := splitColon timeStr
  let hours := digitsToNat (parts.headD [])
  let minutes :=
    match parts with
    | _ :: p2 :: _ => digitsToNat p2
    | _ => 0
  let displayHour := if hours % 12 = 0 then 12 else hours % 12
  natToChars displayHour ++ ':' :: pad2 minutes ++
    (if 12 ≤ hours then [' ', 'P', 'M'] else [' ', 'A', 'M'])

/-- A 12-hour clock time written as the examples of the claim write it:
unpadded hour, colon, two-digit minutes, a space and a lowercase marker. -/
def render12 (h12 m : Nat) (isPm : Bool) : List Char :=
  natToChars h12 ++ ':' :: pad2 m ++ [' '] ++
    (if isPm then ['p', 'm'] else ['a', 'm'])

/-- A 12-hour clock time with no minutes: unpadded hour, space, marker. -/
def render12NoMin (h12 : Nat) (isPm : Bool) : List Char :=
  natToChars h12 ++ [' '] ++ (if isPm then ['p', 'm'] else ['a', 'm'])

/-- The 24-hour value of a 12-hour time, following the claim's words. -/
def specTo24 (h12 : Nat) (isPm : Bool) : Nat :=
  if isPm then (if h12 = 12 then 12 else h12 + 12)
  else (if h12 = 12 then 0 else h12)

/-- The zero-padded 24-hour `"HH:MM"` string the claim expects from
`parseTimeFromText`. -/
def spec24Time (h12 m : Nat) (isPm : Bool) : List Char :=
  pad2 (specTo24 h12 isPm) ++ ':' :: pad2 m

/-- The 12-hour rendering the claim expects back from `formatTime`: the same
clock time with an uppercase period. -/
def specRender12U (h12 m : Nat) (isPm : Bool) : List Char :=
  natToChars h12 ++ ':' :: pad2 m ++ [' '] ++
    (if isPm then ['P', 'M'] else ['A', 'M'])

/-- C10 (counterexample): the claim quantifies over every input string
*containing* a 12-hour time with an am/pm marker, but the regex takes the
*first* time-like match.  `"at 15:00 then 3:30 pm"` contains `"3:30 pm"`
(hour 3, marker `pm`), yet `parseTimeFromText` matches `"at 15:00"` first and
returns `"15:00"`, which `formatTime` renders as `"3:00 PM"` — not the
contained time `"3:30 PM"` (nor its 24-hour form `"15:30"`). -/
theorem parse_format_roundTrip_cex :
    "at 15:00 then ".toList ++ "3:30 pm".toList =
        "at 15:00 then 3:30 pm".toList ∧
      parseTimeFromText "at 15:00 then 3:30 pm".toList =
        some "15:00".toList ∧
      formatTime "15:00".toList = "3:00 PM".toList ∧
      "15:00".toList ≠ "15:30".toList ∧
      "3:00 PM".toList ≠ "3:30 PM".toList := by
  decide

/-- The extraction and the rendering agree on every 12-hour time: for each
hour 1 to 12, minute 0 to 59 and marker, extracting from the matched time
gives its zero-padded 24-hour form, and `formatTime` renders that form back
as the same clock time. -/
theorem roundTrip_key :
    ∀ (hi : Fin 12) (mi : Fin 60) (isPm : Bool),
      parseMatched (render12 (hi.val + 1) mi.val isPm) =
          spec24Time (hi.val + 1) mi.val isPm ∧
        parseMatched (render12NoMin (hi.val + 1) isPm) =
          spec24Time (hi.val + 1) 0 isPm ∧
        formatTime (spec24Time (hi.val + 1) mi.val isPm) =
          specRender12U (hi.val + 1) mi.val isPm := by
  decide

/-- C10 (corrected): for every input string whose first match of the time
regex is the contained 12-hour clock time (hour 1 to 12, am/pm marker,
optional two-digit minutes, written as the claim's examples write it) — in
particular every input that is exactly such a time, or has it as its first
time-like substring as in `"3:30 pm lunch"` — `parseTimeFromText` returns
the zero-padded 24-hour `"HH:MM"` string and `formatTime` renders the same
clock time back in 12-hour form: `"3:30 pm" → "15:30" → "3:30 PM"`,
`"12:00 am" → "00:00" → "12:00 AM"`, and `"12 pm" → "12:00" → "12:00 PM"`. -/
theorem parse_format_roundTrip (s : List Char) (hi : Fin 12) (mi : Fin 60)
    (isPm : Bool) :
    (scanFirst false s = some (render12 (hi.val + 1) mi.val isPm) →
        parseTimeFromText s = some (spec24Time (hi.val + 1) mi.val isPm)) ∧
      (scanFirst false s = some (render12NoMin (hi.val + 1) isPm) →
        parseTimeFromText s = some (spec24Time (hi.val + 1) 0 isPm)) ∧
      formatTime (spec24Time (hi.val + 1) mi.val isPm) =
        specRender12U (hi.val + 1) mi.val isPm := by
  have key := roundTrip_key hi mi isPm
  refine ⟨fun h => ?_, fun h => ?_, key.2.2⟩
  · rw [parseTimeFromText, h]
    exact congrArg some key.1
  · rw [parseTimeFromText, h]
    exact congrArg some key.2.1

theorem parse_format_roundTrip_witness :
    scanFirst false "3:30 pm lunch".toList = some (render12 3 30 true) ∧
      parseTimeFromText "3:30 pm lunch".toList = some (spec24Time 3 30 true) ∧
      scanFirst false "lunch, 12 pm".toList = some (render12NoMin 12 true) ∧
      parseTimeFromText "lunch, 12 pm".toList = some (spec24Time 12 0 true) ∧
      formatTime (spec24Time 3 30 true) = specRender12U 3 30 true := by
  have h1 : scanFirst false "3:30 pm lunch".toList = some (render12 3 30 true) := by
    decide
  have h2 : scanFirst false "lunch, 12 pm".toList = some (render12NoMin 12 true) := by
    decide
  have t1 := parse_format_roundTrip "3:30 pm lunch".toList ⟨2, by decide⟩
    ⟨30, by decide⟩ true
  have t2 := parse_format_roundTrip "lunch, 12 pm".toList ⟨11, by decide⟩
    ⟨0, by decide⟩ true
  exact ⟨h1, t1.1 h1, h2, t2.2.1 h2, t1.2.2⟩

end FaceLink
